import Mathlib

/-!
Verification development for the datacarwash Normalization & Deduplication
Merge Engine (src/datacarwash/components/deduplication.py and
src/datacarwash/components/normilization.py).

Modelling conventions (shallow embedding of the Python source):

* A JSON/Python dict produced by the Row Mapper has a fixed key schema, so each
  entity kind is a Lean structure.  A field whose value may be Python `None`
  is an `Option`; `none` models `None`, and a *missing key* never occurs in
  the data this pipeline produces (the Row Mapper always writes every key), so
  `dict.get(key, default)` on these dicts always returns the stored value.
* Python raises `AttributeError` when a string method (`.lower()`, `.upper()`,
  `.strip()`) is applied to a `None` value obtained that way.  Fallible code
  is therefore modelled in `Except Unit`, with `Except.error ()` standing for
  the raised exception.
* `str.strip()` is modelled by `pyStrip` (drop leading/trailing whitespace),
  `str.lower()`/`str.upper()` by `pyLower`/`pyUpper` (ASCII case mapping, an
  adequate model of the text in play).
* Python truthiness of an optional string (used by `update_person_info`) is
  `none`/`""` falsy, any other string truthy; truthiness of an int is `≠ 0`.
* Timestamps (`datetime.now().isoformat()`) are an opaque `now : String`
  parameter, and freshly generated UUIDs are opaque string parameters.
-/

/-- The `contact` sub-dict of a person record. -/
structure Contact where
  phone_primary : Option String
  phone_secondary : Option String
  deriving DecidableEq, Repr

/-- The `address` sub-dict of a person record. -/
structure Address where
  village : Option String
  subcounty : Option String
  district : Option String
  country : Option String
  deriving DecidableEq, Repr

/-- The `role_data` sub-dict of a person record (fixed three-key schema,
as written by the Row Mapper in normilization.py lines 62-66). -/
structure RoleData where
  registration_number : Option String
  enrollment_date : Option String
  status : Option String
  deriving DecidableEq, Repr

/-- A person record (normilization.py lines 46-70; the same shape is stored in
persons.json and reloaded by `load_existing_records`). -/
structure Person where
  person_id : String
  person_type : Option String
  name : Option String
  age : Option Int
  sex : Option String
  contact : Contact
  address : Address
  role_data : RoleData
  is_active : Bool
  created_at : String
  updated_at : String
  deriving DecidableEq, Repr

/-- Python truthiness of an optional string value: `None` and `""` are falsy. -/
def truthy : Option String → Bool
  | some s => s ≠ ""
  | none => false

/-- Python `str.lower()` (ASCII model). -/
def pyLower (s : String) : String := String.mk (s.data.map Char.toLower)

/-- Python `str.upper()` (ASCII model). -/
def pyUpper (s : String) : String := String.mk (s.data.map Char.toUpper)

/-- Python `str.strip()`: remove leading and trailing whitespace. -/
def pyStrip (s : String) : String :=
  String.mk (((s.data.dropWhile Char.isWhitespace).reverse.dropWhile
    Char.isWhitespace).reverse)

/-- Normalization used by the matcher: `.lower().strip()`
(deduplication.py lines 29, 33, 42-43). -/
def normLower (s : String) : String := pyStrip (pyLower s)

/-- Normalization used by the matcher: `.upper().strip()`
(deduplication.py lines 30, 34). -/
def normUpper (s : String) : String := pyStrip (pyUpper s)

/-!
`find_duplicate_person` (deduplication.py lines 22-50).

The Python loop scans `existing_persons` in order and, per candidate record,
first computes `existing_name`/`existing_reg` (raising `AttributeError` when
the stored value is `None`), then tests the registration-number rule, then the
name+village+age rule, returning the candidate on the first test that passes.

`findDupScan` is the loop, returning the matched record together with the
records before and after it (the split identifies *which* list entry was
returned, which the caller `deduplicate_persons` needs because in Python the
returned dict is aliased with the list entry it came from).
`find_duplicate_person` itself forgets the split, matching the source's
signature.
-/

def findDupScan (name reg_number : String) (person : Person) :
    List Person → Except Unit (Option (List Person × Person × List Person))
  | [] => Except.ok none
  | existing :: rest =>
    match existing.name, existing.role_data.registration_number with
    | some en, some er =>
      let existing_name := normLower en
      let existing_reg := normUpper er
      -- Match by registration number (strongest identifier)
      if reg_number ≠ "" ∧ existing_reg ≠ "" ∧ reg_number = existing_reg then
        Except.ok (some ([], existing, rest))
      -- Match by name + village + age (weaker but useful)
      else if name ≠ "" ∧ existing_name ≠ "" ∧ name = existing_name then
        match existing.address.village, person.address.village with
        | some ev, some nv =>
          if normLower ev = normLower nv ∧ existing.age = person.age then
            Except.ok (some ([], existing, rest))
          else
            (findDupScan name reg_number person rest).map
              (Option.map fun pes => (existing :: pes.1, pes.2.1, pes.2.2))
        -- a None village raises AttributeError at `.lower()`
        | _, _ => Except.error ()
      else
        (findDupScan name reg_number person rest).map
          (Option.map fun pes => (existing :: pes.1, pes.2.1, pes.2.2))
    -- a None name or registration number raises AttributeError (lines 33-34)
    | _, _ => Except.error ()

/-- `find_duplicate_person` with the position of the match kept
(the matched record `e` is returned as a split `l = pre ++ e :: suf`). -/
def findDupEntry (person : Person) (existing_persons : List Person) :
    Except Unit (Option (List Person × Person × List Person)) :=
  match person.name, person.role_data.registration_number with
  | some n, some r => findDupScan (normLower n) (normUpper r) person existing_persons
  -- lines 29-30: a None name or registration number on the draft raises
  | _, _ => Except.error ()

/-- `find_duplicate_person` (deduplication.py lines 22-50): the existing person
record it returns, `none` when no rule fires, `Except.error ()` when the
Python code raises `AttributeError` on a `None` field. -/
def find_duplicate_person (person : Person) (existing_persons : List Person) :
    Except Unit (Option Person) :=
  (findDupEntry person existing_persons).map (Option.map fun pes => pes.2.1)

/-!
`update_person_info` (deduplication.py lines 53-87).

`updated = existing.copy()` is a *shallow* copy: `updated` and `existing`
share the `contact`, `address` and `role_data` dicts.  Every write of the form
`updated['contact'][k] = v` therefore also changes `existing`'s contact dict,
while the top-level assignments `updated['age'] = ...` and
`updated['updated_at'] = ...` affect only the copy.  The model returns the
pair `(updated, existing')`: the dict the function returns, and the state the
caller's `existing` dict has after the call (same nested dicts, original
top-level fields).
-/

/-- `update_person_info existing new now` returns
`(value of the returned dict, post-call state of the existing dict)`. -/
def update_person_info (existing new : Person) (now : String) : Person × Person :=
  -- Update contact if new data exists (lines 61-64)
  let contact1 := if truthy new.contact.phone_primary then
      { existing.contact with phone_primary := new.contact.phone_primary }
    else existing.contact
  let contact2 := if truthy new.contact.phone_secondary then
      { contact1 with phone_secondary := new.contact.phone_secondary }
    else contact1
  -- Update address if more complete (lines 67-72)
  let addr1 := if truthy new.address.village then
      { existing.address with village := new.address.village }
    else existing.address
  let addr2 := if truthy new.address.subcounty then
      { addr1 with subcounty := new.address.subcounty }
    else addr1
  let addr3 := if truthy new.address.district then
      { addr2 with district := new.address.district }
    else addr2
  -- Update age if changed (line 75): `if new.get('age') and new['age'] != existing.get('age')`;
  -- a 0 age is falsy in Python and never triggers the update.
  let age1 := match new.age with
    | some a => if a ≠ 0 ∧ existing.age ≠ some a then some a else existing.age
    | none => existing.age
  -- Update role_data (lines 79-82): `updated['role_data'].update(new['role_data'])`.
  -- The draft's role_data dict always carries all three keys of the fixed
  -- schema, so the key-by-key dict update overwrites every field.
  let role1 := new.role_data
  ({ existing with
      contact := contact2
      address := addr3
      role_data := role1
      age := age1
      updated_at := now },
   { existing with contact := contact2, address := addr3, role_data := role1 })

/-!
`deduplicate_persons` (deduplication.py lines 90-131).

The Python loop calls `find_duplicate_person(person, existing_persons)` for
each draft.  On a match it records the id mapping, calls `update_person_info`,
and appends the returned dict to `updated_persons`; the write-through of the
shared nested dicts means the matched entry of `existing_persons` immediately
shows the new contact/address/role_data (while its top-level `age` and
`updated_at` stay as loaded).  After the loop, each record of
`updated_persons` replaces the first entry of `existing_persons` with the same
`person_id`.  At that point the snapshot's nested dicts are the *same objects*
as the live entry's, so the entry that results carries the snapshot's
top-level fields together with the final state of the shared nested dicts;
`replaceFirstPid` makes that aliasing explicit.
-/

/-- One step of the final update loop (deduplication.py lines 122-126):
replace the first entry whose `person_id` equals the updated record's,
keeping the live entry's nested dicts (they are shared with the snapshot
and already hold the final nested state). -/
def replaceFirstPid (u : Person) : List Person → List Person
  | [] => []
  | existing :: rest =>
    if existing.person_id = u.person_id then
      { u with
          contact := existing.contact
          address := existing.address
          role_data := existing.role_data } :: rest
    else existing :: replaceFirstPid u rest

/-- The final update loop: `for updated in updated_persons: ...` -/
def applyUpdates : List Person → List Person → List Person
  | [], live => live
  | u :: rest, live => applyUpdates rest (replaceFirstPid u live)

/-- Python dict assignment `m[k] = v` on an association-list model:
overwrite the entry if the key is present, append it otherwise. -/
def dictInsert (m : List (String × String)) (k v : String) : List (String × String) :=
  if m.any (fun kv => kv.1 = k) then
    m.map (fun kv => if kv.1 = k then (k, v) else kv)
  else m ++ [(k, v)]

/-- Python dict lookup `m[k]` / `k in m` on the association-list model. -/
def dictLookup (m : List (String × String)) (k : String) : Option String :=
  match m with
  | [] => none
  | kv :: rest => if kv.1 = k then some kv.2 else dictLookup rest k

/-- The main loop of `deduplicate_persons` (lines 104-119), threading the
live state of `existing_persons` (nested dicts written through on each
match), the `unique_persons` and `updated_persons` accumulators and the
`id_mapping` dict. -/
def dedupLoop (now : String) (new_persons live unique : List Person)
    (mapping : List (String × String)) (updP : List Person) :
    Except Unit (List Person × List (String × String) × List Person × List Person) :=
  match new_persons with
  | [] => Except.ok (unique, mapping, updP, live)
  | person :: rest =>
    match findDupEntry person live with
    | Except.error e => Except.error e
    | Except.ok none =>
      -- NEW PERSON
      dedupLoop now rest live (unique ++ [person]) mapping updP
    | Except.ok (some (pre, ex, suf)) =>
      -- DUPLICATE FOUND - update info, map IDs; the matched entry of the
      -- live list now shows the merged nested dicts (shallow-copy aliasing)
      let pr := update_person_info ex person now
      dedupLoop now rest (pre ++ pr.2 :: suf) unique
        (dictInsert mapping person.person_id ex.person_id) (updP ++ [pr.1])

/-- `deduplicate_persons` (deduplication.py lines 90-131).  Python returns
`(unique_persons, id_mapping)` and mutates `existing_persons` in place; the
model returns the triple `(unique_persons, id_mapping, final state of
existing_persons)`. -/
def deduplicate_persons (new_persons existing_persons : List Person) (now : String) :
    Except Unit (List Person × List (String × String) × List Person) :=
  match dedupLoop now new_persons existing_persons [] [] [] with
  | Except.error e => Except.error e
  | Except.ok (unique, mapping, updP, live) =>
    Except.ok (unique, mapping, applyUpdates updP live)

/-!
The five non-person entity kinds.  `save_with_deduplication` and `remap_ids`
read and write only their `patient_id` field; the remaining identifier fields
are kept as data.  (Their per-row construction is embedded only for
observations, the kind the claims inspect; see `rowObservations` below.)
-/

/-- A value stored in an observation's `value` dict: the Python numbers
(`int(...)`/`float(...)` coercions of the cell value) or strings. -/
inductive PyVal where
  | pint (n : Int)
  | pstr (s : String)
  deriving DecidableEq, Repr

/-- An encounter record (normilization.py lines 74-92): the fields the merge
engine touches, plus its own identifier. -/
structure Encounter where
  encounter_id : String
  patient_id : String
  deriving DecidableEq, Repr

/-- An observation record (normilization.py lines 110-178). -/
structure Observation where
  observation_id : String
  patient_id : String
  encounter_id : String
  observation_type : String
  observation_category : String
  observation_name : String
  value : List (String × PyVal)
  observation_date : String
  recorded_by : Option String
  created_at : String
  updated_at : String
  deriving DecidableEq, Repr

/-- A treatment record (normilization.py lines 205-223). -/
structure Treatment where
  treatment_id : String
  patient_id : String
  deriving DecidableEq, Repr

/-- A disease record (normilization.py lines 182-199). -/
structure Disease where
  disease_id : String
  patient_id : String
  deriving DecidableEq, Repr

/-- A medical-record record (normilization.py lines 227-244). -/
structure MedicalRecord where
  record_id : String
  patient_id : String
  deriving DecidableEq, Repr

/-- Access to the `patient_id` field that `remap_ids` rewrites
(`field_name='patient_id'` at every call site in save_with_deduplication). -/
class PatientRef (α : Type) where
  getPid : α → String
  setPid : α → String → α
  getPid_setPid : ∀ r v, getPid (setPid r v) = v

instance : PatientRef Encounter where
  getPid r := r.patient_id
  setPid r v := { r with patient_id := v }
  getPid_setPid _ _ := rfl

instance : PatientRef Observation where
  getPid r := r.patient_id
  setPid r v := { r with patient_id := v }
  getPid_setPid _ _ := rfl

instance : PatientRef Treatment where
  getPid r := r.patient_id
  setPid r v := { r with patient_id := v }
  getPid_setPid _ _ := rfl

instance : PatientRef Disease where
  getPid r := r.patient_id
  setPid r v := { r with patient_id := v }
  getPid_setPid _ _ := rfl

instance : PatientRef MedicalRecord where
  getPid r := r.patient_id
  setPid r v := { r with patient_id := v }
  getPid_setPid _ _ := rfl

/-- `remap_ids` (deduplication.py lines 134-146): rewrite each record whose
`patient_id` is a key of `id_mapping` to the mapped identifier.  Python
mutates the list in place; the model returns the new list. -/
def remap_ids {α : Type} [PatientRef α] (records : List α)
    (id_mapping : List (String × String)) : List α :=
  records.map fun record =>
    match dictLookup id_mapping (PatientRef.getPid record) with
    | some newId => PatientRef.setPid record newId
    | none => record

/-- The six draft collections `save_with_deduplication` receives (one batch,
produced by `normalization` for one input file). -/
structure Batch where
  persons : List Person
  encounters : List Encounter
  observations : List Observation
  treatments : List Treatment
  diseases : List Disease
  medical_records : List MedicalRecord
  deriving DecidableEq, Repr

/-- The six persisted JSON collections (the record base): what
`load_existing_records` reads at the start of a merge, and what the six
`json.dump` calls at the end write back. -/
structure Store where
  persons : List Person
  encounters : List Encounter
  observations : List Observation
  treatments : List Treatment
  diseases : List Disease
  medical_records : List MedicalRecord
  deriving DecidableEq, Repr

/-- `save_with_deduplication` (deduplication.py lines 149-227): deduplicate
the person drafts against the prior persons, remap `patient_id` in the five
dependent collections when the id mapping is non-empty (`if id_mapping:`),
append everything, and persist.  `prior` models the six collections loaded
from disk, the result models the six collections written back. -/
def save_with_deduplication (b : Batch) (prior : Store) (now : String) :
    Except Unit Store :=
  match deduplicate_persons b.persons prior.persons now with
  | Except.error e => Except.error e
  | Except.ok (unique_persons, id_mapping, existing_persons_final) =>
    -- Remap IDs in related records (lines 182-188)
    let encounters := if id_mapping.isEmpty then b.encounters
      else remap_ids b.encounters id_mapping
    let observations := if id_mapping.isEmpty then b.observations
      else remap_ids b.observations id_mapping
    let treatments := if id_mapping.isEmpty then b.treatments
      else remap_ids b.treatments id_mapping
    let diseases := if id_mapping.isEmpty then b.diseases
      else remap_ids b.diseases id_mapping
    let medical_records := if id_mapping.isEmpty then b.medical_records
      else remap_ids b.medical_records id_mapping
    -- Merge (lines 190-198) and save (lines 200-217)
    Except.ok
      { persons := existing_persons_final ++ unique_persons
        encounters := prior.encounters ++ encounters
        observations := prior.observations ++ observations
        treatments := prior.treatments ++ treatments
        diseases := prior.diseases ++ diseases
        medical_records := prior.medical_records ++ medical_records }

/-!
The Row Mapper (normilization.py, `normalization`, lines 39-244).

One input row of the tabular export.  A text cell is `some s` when the cell
holds a (string) value and `none` when the cell is absent or NaN
(`pd.notna(...)` is `isSome`); numeric cells are carried as integers (the
`int(...)`/`float(...)` coercions preserve them in this model).  Only the
columns read by the parts of the mapper the claims are about are listed.
-/

structure Row where
  patient_name : Option String
  age : Option Int
  sex : Option String
  phone : Option String
  village : Option String
  reg_number : Option String
  assessment_date : Option String
  pulse_rate : Option Int
  bp_systol : Option Int
  bp_diastol : Option Int
  temperature : Option Int
  resp_rate : Option Int
  general_assessment : Option String
  cachexia : Option String
  jaundice : Option String
  pallor : Option String
  body_wasting : Option String
  loc : Option String
  orientation : Option String
  deriving DecidableEq, Repr

/-- The person draft built for one row (normilization.py lines 46-71).
`person_id` is the freshly generated UUID, `now` the timestamp and `nowDate`
today's date (the default for a missing assessment-date column). -/
def mkPerson (row : Row) (person_id now nowDate : String) : Person :=
  { person_id := person_id
    person_type := some "patient"
    -- str(row.get('patient_name', '')).strip().lower() if pd.notna(...) else None
    name := row.patient_name.map (fun s => pyLower (pyStrip s))
    age := row.age
    sex := row.sex.map (fun s => pyLower (pyStrip s))
    contact :=
      { phone_primary := row.phone
        phone_secondary := none }
    address :=
      { village := row.village.map (fun s => pyLower (pyStrip s))
        subcounty := none
        district := some "tororo"
        country := some "uganda" }
    role_data :=
      { registration_number := row.reg_number.map (fun s => pyUpper (pyStrip s))
        enrollment_date := some (row.assessment_date.getD nowDate)
        status := some "active" }
    is_active := true
    created_at := now
    updated_at := now }

/-- The `vitals` dict assembled for one row (normilization.py lines 97-107):
conditional inserts in source order. -/
def rowVitals (row : Row) : List (String × PyVal) :=
  let vitals : List (String × PyVal) := []
  let vitals := match row.pulse_rate with
    | some n => vitals ++ [("heart_rate", PyVal.pint n)]
    | none => vitals
  let vitals := match row.bp_systol with
    | some n => vitals ++ [("blood_pressure_systolic", PyVal.pint n)]
    | none => vitals
  let vitals := match row.bp_diastol with
    | some n => vitals ++ [("blood_pressure_diastolic", PyVal.pint n)]
    | none => vitals
  let vitals := match row.temperature with
    | some n => vitals ++ [("temperature", PyVal.pint n)]
    | none => vitals
  match row.resp_rate with
  | some n => vitals ++ [("respiratory_rate", PyVal.pint n)]
  | none => vitals

/-- An observation draft for one row with the constant parts filled in. -/
def mkObs (patient_id encounter_id ty cat nm : String)
    (value : List (String × PyVal)) (encDate now : String) : Observation :=
  { observation_id := ""
    patient_id := patient_id
    encounter_id := encounter_id
    observation_type := ty
    observation_category := cat
    observation_name := nm
    value := value
    observation_date := encDate
    recorded_by := none
    created_at := now
    updated_at := now }

/-- One conditional observation append (normilization.py lines 133-147,
150-163, 165-178): `if pd.notna(row.get(field)): observations.append(...)`,
with the single-entry value dict `{k: str(row[field])}`. -/
def optObs (o : Option String) (pid eid ty cat nm k d t : String) : List Observation :=
  match o with
  | some s => [mkObs pid eid ty cat nm [(k, PyVal.pstr s)] d t]
  | none => []

/-- The observation drafts appended for one row (normilization.py lines
96-178), in source order: the composite vital-signs observation (only when
the vitals dict is non-empty, `if vitals:` at line 109), then one
physical-exam observation per present exam field in the `exam_fields`
insertion order, then the two neurological observations.  The freshly
generated observation UUIDs play no role in any claim and are modelled by a
constant. -/
def rowObservations (row : Row) (person_id encounter_id encDate now : String) :
    List Observation :=
  (if rowVitals row ≠ [] then
      [mkObs person_id encounter_id "vital_sign" "cardiovascular" "vital_signs"
        (rowVitals row) encDate now]
    else [])
  ++ optObs row.general_assessment person_id encounter_id "physical_exam_finding"
      "general" "general_assessment" "finding" encDate now
  ++ optObs row.cachexia person_id encounter_id "physical_exam_finding"
      "general" "cachexia" "finding" encDate now
  ++ optObs row.jaundice person_id encounter_id "physical_exam_finding"
      "general" "jaundice" "finding" encDate now
  ++ optObs row.pallor person_id encounter_id "physical_exam_finding"
      "general" "pallor" "finding" encDate now
  ++ optObs row.body_wasting person_id encounter_id "physical_exam_finding"
      "general" "body_wasting" "finding" encDate now
  ++ optObs row.loc person_id encounter_id "assessment_score"
      "neurological" "level_of_consciousness" "level" encDate now
  ++ optObs row.orientation person_id encounter_id "assessment_score"
      "neurological" "orientation" "status" encDate now

/-- The vital-signs observations among one row's observation drafts
(the claims count the observations with `observation_type == 'vital_sign'`). -/
def vitalSignObs (row : Row) (person_id encounter_id encDate now : String) :
    List Observation :=
  (rowObservations row person_id encounter_id encDate now).filter
    (fun o => o.observation_type = "vital_sign")

/-!
Helper lemmas.
-/

/-- Whether a person's stored registration number normalizes to `R`
(the "same registration number" relation of the matcher's strong rule). -/
def hasRegNorm (R : String) (x : Person) : Bool :=
  match x.role_data.registration_number with
  | some s => normUpper s = R
  | none => false

theorem findDupScan_decomp (nm rg : String) (p : Person) :
    ∀ (l pre suf : List Person) (e : Person),
      findDupScan nm rg p l = Except.ok (some (pre, e, suf)) → l = pre ++ e :: suf := by
  intro l
  induction l with
  | nil => intro pre suf e h; simp [findDupScan] at h
  | cons x rest ih =>
    intro pre suf e h
    rw [findDupScan] at h
    rcases hx : x.name with _ | en <;> rw [hx] at h
    · simp at h
    rcases hr : x.role_data.registration_number with _ | er <;> rw [hr] at h
    · simp at h
    simp only at h
    split at h
    · simp only [Except.ok.injEq, Option.some.injEq, Prod.mk.injEq] at h
      obtain ⟨h1, h2, h3⟩ := h
      subst h1; subst h2; subst h3
      simp
    split at h
    · split at h
      · split at h
        · simp only [Except.ok.injEq, Option.some.injEq, Prod.mk.injEq] at h
          obtain ⟨h1, h2, h3⟩ := h
          subst h1; subst h2; subst h3
          simp
        · rcases hrec : findDupScan nm rg p rest with _ | o <;> rw [hrec] at h
          · simp [Except.map] at h
          rcases o with _ | ⟨pre1, e1, suf1⟩
          · simp [Except.map] at h
          · simp only [Except.map, Except.ok.injEq, Option.map, Option.some.injEq,
              Prod.mk.injEq] at h
            obtain ⟨h1, h2, h3⟩ := h
            subst h1; subst h2; subst h3
            simp [ih _ _ _ hrec]
      · simp at h
    · rcases hrec : findDupScan nm rg p rest with _ | o <;> rw [hrec] at h
      · simp [Except.map] at h
      rcases o with _ | ⟨pre1, e1, suf1⟩
      · simp [Except.map] at h
      · simp only [Except.map, Except.ok.injEq, Option.map, Option.some.injEq,
          Prod.mk.injEq] at h
        obtain ⟨h1, h2, h3⟩ := h
        subst h1; subst h2; subst h3
        simp [ih _ _ _ hrec]

theorem findDupEntry_decomp (p : Person) (l pre suf : List Person) (e : Person)
    (h : findDupEntry p l = Except.ok (some (pre, e, suf))) : l = pre ++ e :: suf := by
  rw [findDupEntry] at h
  rcases hn : p.name with _ | n <;> rw [hn] at h
  · simp at h
  rcases hr : p.role_data.registration_number with _ | r <;> rw [hr] at h
  · simp at h
  exact findDupScan_decomp _ _ _ _ _ _ _ h

theorem find_duplicate_person_split (p : Person) (l : List Person) (e : Person)
    (h : find_duplicate_person p l = Except.ok (some e)) :
    ∃ pre suf, findDupEntry p l = Except.ok (some (pre, e, suf)) ∧ l = pre ++ e :: suf := by
  rw [find_duplicate_person] at h
  rcases he : findDupEntry p l with _ | o <;> rw [he] at h
  · simp [Except.map] at h
  rcases o with _ | ⟨pre, e1, suf⟩
  · simp [Except.map] at h
  · simp only [Except.map, Option.map, Except.ok.injEq, Option.some.injEq] at h
    subst h
    exact ⟨pre, suf, rfl, findDupEntry_decomp p l pre suf _ he⟩

theorem findDupScan_append_none (nm rg : String) (p : Person) :
    ∀ (l1 l2 : List Person), findDupScan nm rg p l1 = Except.ok none →
      findDupScan nm rg p (l1 ++ l2) =
        (findDupScan nm rg p l2).map
          (Option.map fun pes => (l1 ++ pes.1, pes.2.1, pes.2.2)) := by
  intro l1
  induction l1 with
  | nil =>
    intro l2 _
    rcases h2 : findDupScan nm rg p l2 with _ | o
    · simp [h2, Except.map]
    rcases o with _ | ⟨pre, e, suf⟩ <;> simp [h2, Except.map, Option.map]
  | cons x rest ih =>
    intro l2 h
    rw [findDupScan] at h
    rw [List.cons_append, findDupScan]
    rcases hx : x.name with _ | en
    · rw [hx] at h; simp at h
    rcases hr : x.role_data.registration_number with _ | er
    · rw [hx, hr] at h; simp at h
    rw [hx, hr] at h
    simp only at h ⊢
    by_cases hstrong : rg ≠ "" ∧ normUpper er ≠ "" ∧ rg = normUpper er
    · rw [if_pos hstrong] at h; simp at h
    rw [if_neg hstrong] at h ⊢
    by_cases hweak : nm ≠ "" ∧ normLower en ≠ "" ∧ nm = normLower en
    · rw [if_pos hweak] at h ⊢
      rcases hev : x.address.village with _ | ev
      · rw [hev] at h; simp at h
      rcases hnv : p.address.village with _ | nv
      · rw [hev, hnv] at h; simp at h
      rw [hev, hnv] at h
      simp only at h ⊢
      by_cases hva : normLower ev = normLower nv ∧ x.age = p.age
      · rw [if_pos hva] at h; simp at h
      rw [if_neg hva] at h ⊢
      rcases hrec : findDupScan nm rg p rest with _ | o <;> rw [hrec] at h
      · simp [Except.map] at h
      rcases o with _ | ⟨pre1, e1, suf1⟩
      · rw [ih l2 hrec]
        rcases h2 : findDupScan nm rg p l2 with _ | o2
        · simp [Except.map]
        rcases o2 with _ | ⟨pre2, e2, suf2⟩ <;> simp [Except.map, Option.map]
      · simp [Except.map] at h
    · rw [if_neg hweak] at h ⊢
      rcases hrec : findDupScan nm rg p rest with _ | o <;> rw [hrec] at h
      · simp [Except.map] at h
      rcases o with _ | ⟨pre1, e1, suf1⟩
      · rw [ih l2 hrec]
        rcases h2 : findDupScan nm rg p l2 with _ | o2
        · simp [Except.map]
        rcases o2 with _ | ⟨pre2, e2, suf2⟩ <;> simp [Except.map, Option.map]
      · simp [Except.map] at h

theorem update_person_info_fst_pid (e p : Person) (now : String) :
    (update_person_info e p now).1.person_id = e.person_id := rfl

theorem update_person_info_snd_pid (e p : Person) (now : String) :
    (update_person_info e p now).2.person_id = e.person_id := rfl

theorem update_person_info_fst_role (e p : Person) (now : String) :
    (update_person_info e p now).1.role_data = p.role_data := rfl

theorem replaceFirstPid_map_pid (u : Person) :
    ∀ l : List Person, (replaceFirstPid u l).map Person.person_id = l.map Person.person_id := by
  intro l
  induction l with
  | nil => rfl
  | cons x rest ih =>
    rw [replaceFirstPid]
    by_cases hx : x.person_id = u.person_id
    · rw [if_pos hx]; simp [hx]
    · rw [if_neg hx]; simp [ih]

theorem applyUpdates_map_pid :
    ∀ (updP live : List Person),
      (applyUpdates updP live).map Person.person_id = live.map Person.person_id := by
  intro updP
  induction updP with
  | nil => intro live; rfl
  | cons u rest ih =>
    intro live
    rw [applyUpdates, ih, replaceFirstPid_map_pid]

theorem replaceFirstPid_of_not_mem_pre (u : Person) :
    ∀ (pre : List Person) (w : Person) (suf : List Person),
      (∀ x ∈ pre, x.person_id ≠ u.person_id) → w.person_id = u.person_id →
      replaceFirstPid u (pre ++ w :: suf) =
        pre ++ ({ u with
          contact := w.contact
          address := w.address
          role_data := w.role_data } :: suf) := by
  intro pre
  induction pre with
  | nil =>
    intro w suf _ hw
    rw [List.nil_append, replaceFirstPid, if_pos hw, List.nil_append]
  | cons x rest ih =>
    intro w suf hpre hw
    rw [List.cons_append, replaceFirstPid,
      if_neg (hpre x (List.mem_cons_self x rest)), List.cons_append,
      ih w suf (fun y hy => hpre y (List.mem_cons_of_mem x hy)) hw]

theorem dictLookup_mem :
    ∀ (m : List (String × String)) (k v : String),
      dictLookup m k = some v → (k, v) ∈ m := by
  intro m
  induction m with
  | nil => intro k v h; simp [dictLookup] at h
  | cons kv rest ih =>
    intro k v h
    rw [dictLookup] at h
    by_cases hk : kv.1 = k
    · rw [if_pos hk] at h
      simp only [Option.some.injEq] at h
      subst h; subst hk
      exact List.mem_cons_self _ _
    · rw [if_neg hk] at h
      exact List.mem_cons_of_mem _ (ih k v h)

theorem dictLookup_none :
    ∀ (m : List (String × String)) (k : String),
      dictLookup m k = none ↔ k ∉ m.map Prod.fst := by
  intro m
  induction m with
  | nil => intro k; simp [dictLookup]
  | cons kv rest ih =>
    intro k
    rw [dictLookup]
    by_cases hk : kv.1 = k
    · rw [if_pos hk]
      constructor
      · intro h; cases h
      · intro h
        exact absurd (show k ∈ (kv :: rest).map Prod.fst by simp [hk]) h
    · rw [if_neg hk, ih k]
      simp only [List.map_cons, List.mem_cons, not_or]
      constructor
      · intro h; exact ⟨fun hkk => hk hkk.symm, h⟩
      · intro h; exact h.2

theorem map_fst_overwrite (k v : String) :
    ∀ m : List (String × String),
      (m.map (fun kv => if kv.1 = k then (k, v) else kv)).map Prod.fst = m.map Prod.fst := by
  intro m
  induction m with
  | nil => rfl
  | cons kv rest ih =>
    simp only [List.map_cons]
    by_cases h1 : kv.1 = k
    · rw [if_pos h1, ih]; simp [h1]
    · rw [if_neg h1, ih]

theorem dictInsert_map_fst_sub (m : List (String × String)) (k v a : String)
    (ha : a ∈ m.map Prod.fst ∨ a = k) : a ∈ (dictInsert m k v).map Prod.fst := by
  rw [dictInsert]
  by_cases hm : m.any (fun kv => kv.1 = k) = true
  · rw [if_pos hm, map_fst_overwrite]
    rcases ha with ha | rfl
    · exact ha
    · rcases List.any_eq_true.mp hm with ⟨kv1, hmem, h1⟩
      have h1 : kv1.1 = a := by simpa using h1
      rw [← h1]
      exact List.mem_map.mpr ⟨kv1, hmem, rfl⟩
  · rw [if_neg hm, List.map_append]
    rcases ha with ha | rfl
    · exact List.mem_append_left _ ha
    · exact List.mem_append_right _ (by simp)

theorem dictInsert_mem (m : List (String × String)) (k v : String) :
    ∀ kv ∈ dictInsert m k v, kv ∈ m ∨ kv = (k, v) := by
  intro kv hkv
  rw [dictInsert] at hkv
  by_cases hm : m.any (fun x => x.1 = k) = true
  · rw [if_pos hm] at hkv
    rcases List.mem_map.mp hkv with ⟨kv1, hmem, heq⟩
    by_cases h1 : kv1.1 = k
    · rw [if_pos h1] at heq
      right; exact heq.symm
    · rw [if_neg h1] at heq
      left; rw [← heq]; exact hmem
  · rw [if_neg hm] at hkv
    rcases List.mem_append.mp hkv with h | h
    · left; exact h
    · right; simpa using h

theorem dedupLoop_map_pid (now : String) :
    ∀ (ps live unique : List Person) (m : List (String × String)) (updP : List Person)
      (u1 : List Person) (m1 : List (String × String)) (updP1 live1 : List Person),
      dedupLoop now ps live unique m updP = Except.ok (u1, m1, updP1, live1) →
      live1.map Person.person_id = live.map Person.person_id := by
  intro ps
  induction ps with
  | nil =>
    intro live unique m updP u1 m1 updP1 live1 h
    rw [dedupLoop] at h
    simp only [Except.ok.injEq, Prod.mk.injEq] at h
    rcases h with ⟨rfl, rfl, rfl, rfl⟩
    rfl
  | cons p rest ih =>
    intro live unique m updP u1 m1 updP1 live1 h
    rw [dedupLoop] at h
    rcases he : findDupEntry p live with _ | o <;> rw [he] at h
    · cases h
    rcases o with _ | ⟨pre, ex, suf⟩
    · exact ih _ _ _ _ _ _ _ _ h
    · have hdecomp := findDupEntry_decomp p live pre suf ex he
      have h2 := ih _ _ _ _ _ _ _ _ h
      rw [h2, hdecomp]
      simp [update_person_info_snd_pid]

theorem dedupLoop_mapping_sub (now : String) :
    ∀ (ps live unique : List Person) (m : List (String × String)) (updP : List Person)
      (u1 : List Person) (m1 : List (String × String)) (updP1 live1 : List Person),
      dedupLoop now ps live unique m updP = Except.ok (u1, m1, updP1, live1) →
      ∀ kv ∈ m1, kv ∈ m ∨ kv.2 ∈ live.map Person.person_id := by
  intro ps
  induction ps with
  | nil =>
    intro live unique m updP u1 m1 updP1 live1 h kv hkv
    rw [dedupLoop] at h
    simp only [Except.ok.injEq, Prod.mk.injEq] at h
    rcases h with ⟨rfl, rfl, rfl, rfl⟩
    exact Or.inl hkv
  | cons p rest ih =>
    intro live unique m updP u1 m1 updP1 live1 h kv hkv
    rw [dedupLoop] at h
    rcases he : findDupEntry p live with _ | o <;> rw [he] at h
    · cases h
    rcases o with _ | ⟨pre, ex, suf⟩
    · exact ih _ _ _ _ _ _ _ _ h kv hkv
    · have hdecomp := findDupEntry_decomp p live pre suf ex he
      have hlive1 : (pre ++ (update_person_info ex p now).2 :: suf).map Person.person_id
          = live.map Person.person_id := by
        rw [hdecomp]; simp [update_person_info_snd_pid]
      rcases ih _ _ _ _ _ _ _ _ h kv hkv with hin | hin
      · rcases dictInsert_mem _ _ _ kv hin with hin2 | rfl
        · exact Or.inl hin2
        · refine Or.inr ?_
          rw [hdecomp]
          simp
      · rw [hlive1] at hin
        exact Or.inr hin

theorem dedupLoop_keys_mono (now : String) :
    ∀ (ps live unique : List Person) (m : List (String × String)) (updP : List Person)
      (u1 : List Person) (m1 : List (String × String)) (updP1 live1 : List Person),
      dedupLoop now ps live unique m updP = Except.ok (u1, m1, updP1, live1) →
      ∀ a ∈ m.map Prod.fst, a ∈ m1.map Prod.fst := by
  intro ps
  induction ps with
  | nil =>
    intro live unique m updP u1 m1 updP1 live1 h a ha
    rw [dedupLoop] at h
    simp only [Except.ok.injEq, Prod.mk.injEq] at h
    rcases h with ⟨rfl, rfl, rfl, rfl⟩
    exact ha
  | cons p rest ih =>
    intro live unique m updP u1 m1 updP1 live1 h a ha
    rw [dedupLoop] at h
    rcases he : findDupEntry p live with _ | o <;> rw [he] at h
    · cases h
    rcases o with _ | ⟨pre, ex, suf⟩
    · exact ih _ _ _ _ _ _ _ _ h a ha
    · exact ih _ _ _ _ _ _ _ _ h a (dictInsert_map_fst_sub _ _ _ _ (Or.inl ha))

theorem dedupLoop_unique_mono (now : String) :
    ∀ (ps live unique : List Person) (m : List (String × String)) (updP : List Person)
      (u1 : List Person) (m1 : List (String × String)) (updP1 live1 : List Person),
      dedupLoop now ps live unique m updP = Except.ok (u1, m1, updP1, live1) →
      ∀ x ∈ unique, x ∈ u1 := by
  intro ps
  induction ps with
  | nil =>
    intro live unique m updP u1 m1 updP1 live1 h x hx
    rw [dedupLoop] at h
    simp only [Except.ok.injEq, Prod.mk.injEq] at h
    rcases h with ⟨rfl, rfl, rfl, rfl⟩
    exact hx
  | cons p rest ih =>
    intro live unique m updP u1 m1 updP1 live1 h x hx
    rw [dedupLoop] at h
    rcases he : findDupEntry p live with _ | o <;> rw [he] at h
    · cases h
    rcases o with _ | ⟨pre, ex, suf⟩
    · exact ih _ _ _ _ _ _ _ _ h x (List.mem_append_left _ hx)
    · exact ih _ _ _ _ _ _ _ _ h x hx

theorem dedupLoop_covers (now : String) :
    ∀ (ps live unique : List Person) (m : List (String × String)) (updP : List Person)
      (u1 : List Person) (m1 : List (String × String)) (updP1 live1 : List Person),
      dedupLoop now ps live unique m updP = Except.ok (u1, m1, updP1, live1) →
      ∀ p ∈ ps, p.person_id ∈ m1.map Prod.fst ∨ p.person_id ∈ u1.map Person.person_id := by
  intro ps
  induction ps with
  | nil =>
    intro live unique m updP u1 m1 updP1 live1 h p hp
    cases hp
  | cons q rest ih =>
    intro live unique m updP u1 m1 updP1 live1 h p hp
    rw [dedupLoop] at h
    rcases he : findDupEntry q live with _ | o <;> rw [he] at h
    · cases h
    rcases List.mem_cons.mp hp with rfl | hp
    · rcases o with _ | ⟨pre, ex, suf⟩
      · exact Or.inr (List.mem_map.mpr ⟨p,
          dedupLoop_unique_mono now _ _ _ _ _ _ _ _ _ h p
            (List.mem_append_right _ (List.mem_singleton.mpr rfl)), rfl⟩)
      · exact Or.inl (dedupLoop_keys_mono now _ _ _ _ _ _ _ _ _ h _
          (dictInsert_map_fst_sub _ _ _ _ (Or.inr rfl)))
    · rcases o with _ | ⟨pre, ex, suf⟩
      · exact ih _ _ _ _ _ _ _ _ h p hp
      · exact ih _ _ _ _ _ _ _ _ h p hp

theorem deduplicate_persons_parts (np ex : List Person) (now : String)
    (u : List Person) (m : List (String × String)) (fin : List Person)
    (h : deduplicate_persons np ex now = Except.ok (u, m, fin)) :
    ∃ updP live1, dedupLoop now np ex [] [] [] = Except.ok (u, m, updP, live1) ∧
      fin = applyUpdates updP live1 := by
  rw [deduplicate_persons] at h
  rcases hl : dedupLoop now np ex [] [] [] with _ | q <;> rw [hl] at h
  · cases h
  · obtain ⟨u0, m0, updP0, live0⟩ := q
    simp only [Except.ok.injEq, Prod.mk.injEq] at h
    rcases h with ⟨rfl, rfl, rfl⟩
    exact ⟨updP0, live0, rfl, rfl⟩

theorem dedup_map_pid (np ex : List Person) (now : String)
    (u : List Person) (m : List (String × String)) (fin : List Person)
    (h : deduplicate_persons np ex now = Except.ok (u, m, fin)) :
    fin.map Person.person_id = ex.map Person.person_id := by
  obtain ⟨updP, live1, hl, rfl⟩ := deduplicate_persons_parts np ex now u m fin h
  rw [applyUpdates_map_pid]
  exact dedupLoop_map_pid now _ _ _ _ _ _ _ _ _ hl

theorem dedup_mapping_values (np ex : List Person) (now : String)
    (u : List Person) (m : List (String × String)) (fin : List Person)
    (h : deduplicate_persons np ex now = Except.ok (u, m, fin)) :
    ∀ kv ∈ m, kv.2 ∈ ex.map Person.person_id := by
  obtain ⟨updP, live1, hl, rfl⟩ := deduplicate_persons_parts np ex now u m fin h
  intro kv hkv
  rcases dedupLoop_mapping_sub now _ _ _ _ _ _ _ _ _ hl kv hkv with hin | hin
  · cases hin
  · exact hin

theorem dedup_covers (np ex : List Person) (now : String)
    (u : List Person) (m : List (String × String)) (fin : List Person)
    (h : deduplicate_persons np ex now = Except.ok (u, m, fin)) :
    ∀ p ∈ np, p.person_id ∈ m.map Prod.fst ∨ p.person_id ∈ u.map Person.person_id := by
  obtain ⟨updP, live1, hl, rfl⟩ := deduplicate_persons_parts np ex now u m fin h
  exact dedupLoop_covers now _ _ _ _ _ _ _ _ _ hl

theorem update_person_info_merge_self (e p : Person) (now : String) :
    { (update_person_info e p now).1 with
        contact := (update_person_info e p now).2.contact
        address := (update_person_info e p now).2.address
        role_data := (update_person_info e p now).2.role_data } =
      (update_person_info e p now).1 := rfl

theorem dedup_singleton (p : Person) (l pre suf : List Person) (e : Person) (now : String)
    (he : findDupEntry p l = Except.ok (some (pre, e, suf)))
    (hnodup : (l.map Person.person_id).Nodup) :
    deduplicate_persons [p] l now =
      Except.ok ([], [(p.person_id, e.person_id)],
        pre ++ (update_person_info e p now).1 :: suf) := by
  have hdecomp := findDupEntry_decomp p l pre suf e he
  have hpre : ∀ x ∈ pre, x.person_id ≠ (update_person_info e p now).1.person_id := by
    intro x hx
    rw [update_person_info_fst_pid]
    rw [hdecomp, List.map_append] at hnodup
    have hdisj := List.disjoint_of_nodup_append hnodup
    intro hcontra
    exact hdisj (List.mem_map.mpr ⟨x, hx, rfl⟩)
      (by rw [List.map_cons, hcontra]; exact List.mem_cons_self _ _)
  rw [deduplicate_persons, dedupLoop, he]
  simp only [dedupLoop]
  have hins : dictInsert [] p.person_id e.person_id = [(p.person_id, e.person_id)] := rfl
  rw [hins]
  have happly : applyUpdates [(update_person_info e p now).1]
      (pre ++ (update_person_info e p now).2 :: suf) =
      pre ++ (update_person_info e p now).1 :: suf := by
    rw [applyUpdates, applyUpdates,
      replaceFirstPid_of_not_mem_pre _ pre _ suf hpre
        (by rw [update_person_info_snd_pid, update_person_info_fst_pid]),
      update_person_info_merge_self]
  rw [List.nil_append, happly]

theorem remap_ids_length {α : Type} [PatientRef α] (rs : List α)
    (m : List (String × String)) : (remap_ids rs m).length = rs.length := by
  rw [remap_ids, List.length_map]

theorem remap_ids_pid_cases {α : Type} [PatientRef α] (rs : List α)
    (m : List (String × String)) :
    ∀ r1 ∈ remap_ids rs m,
      (∃ kv ∈ m, PatientRef.getPid r1 = kv.2) ∨
      (PatientRef.getPid r1 ∈ rs.map PatientRef.getPid ∧
        dictLookup m (PatientRef.getPid r1) = none) := by
  intro r1 h1
  rcases List.mem_map.mp h1 with ⟨r, hr, heq⟩
  rcases hlk : dictLookup m (PatientRef.getPid r) with _ | v
  · rw [hlk] at heq
    right
    rw [← heq]
    exact ⟨List.mem_map.mpr ⟨r, hr, rfl⟩, hlk⟩
  · rw [hlk] at heq
    left
    refine ⟨(PatientRef.getPid r, v), dictLookup_mem m _ _ hlk, ?_⟩
    rw [← heq, PatientRef.getPid_setPid]

theorem refint_generic {α : Type} [PatientRef α]
    (priorRecs draftRecs : List α) (priorPersons draftPersons unique fin : List Person)
    (m : List (String × String))
    (hfin : fin.map Person.person_id = priorPersons.map Person.person_id)
    (hvals : ∀ kv ∈ m, kv.2 ∈ priorPersons.map Person.person_id)
    (hcov : ∀ p ∈ draftPersons,
      p.person_id ∈ m.map Prod.fst ∨ p.person_id ∈ unique.map Person.person_id)
    (hprior : ∀ r ∈ priorRecs, PatientRef.getPid r ∈ priorPersons.map Person.person_id)
    (hbatch : ∀ r ∈ draftRecs, PatientRef.getPid r ∈ draftPersons.map Person.person_id) :
    ∀ r ∈ priorRecs ++ (if m.isEmpty then draftRecs else remap_ids draftRecs m),
      PatientRef.getPid r ∈ (fin ++ unique).map Person.person_id := by
  intro r hr
  rw [List.map_append, hfin]
  rcases List.mem_append.mp hr with hr | hr
  · exact List.mem_append_left _ (hprior r hr)
  · by_cases hm : m.isEmpty
    · rw [if_pos hm] at hr
      have hid := hbatch r hr
      rcases List.mem_map.mp hid with ⟨qp, hqp, hqpe⟩
      rcases hcov qp hqp with hk | hu
      · rw [List.isEmpty_iff] at hm
        subst hm
        cases hk
      · rw [← hqpe]
        exact List.mem_append_right _ hu
    · rw [if_neg hm] at hr
      rcases remap_ids_pid_cases draftRecs m r hr with ⟨kv, hkv, hpid⟩ | ⟨hpid, hnone⟩
      · rw [hpid]
        exact List.mem_append_left _ (hvals kv hkv)
      · rcases List.mem_map.mp hpid with ⟨q, hq, hqe⟩
        have hid := hbatch q hq
        rw [hqe] at hid
        rcases List.mem_map.mp hid with ⟨qp, hqp, hqpe⟩
        rcases hcov qp hqp with hk | hu
        · rw [hqpe] at hk
          rw [dictLookup_none] at hnone
          exact absurd hk hnone
        · rw [← hqpe]
          exact List.mem_append_right _ hu

theorem save_ok_parts (b : Batch) (prior : Store) (now : String) (out : Store)
    (h : save_with_deduplication b prior now = Except.ok out) :
    ∃ u m fin, deduplicate_persons b.persons prior.persons now = Except.ok (u, m, fin) ∧
      out = { persons := fin ++ u
              encounters := prior.encounters ++
                (if m.isEmpty then b.encounters else remap_ids b.encounters m)
              observations := prior.observations ++
                (if m.isEmpty then b.observations else remap_ids b.observations m)
              treatments := prior.treatments ++
                (if m.isEmpty then b.treatments else remap_ids b.treatments m)
              diseases := prior.diseases ++
                (if m.isEmpty then b.diseases else remap_ids b.diseases m)
              medical_records := prior.medical_records ++
                (if m.isEmpty then b.medical_records else remap_ids b.medical_records m) } := by
  rw [save_with_deduplication] at h
  rcases hd : deduplicate_persons b.persons prior.persons now with _ | t <;> rw [hd] at h
  · cases h
  obtain ⟨u, m, fin⟩ := t
  simp only [Except.ok.injEq] at h
  exact ⟨u, m, fin, rfl, h.symm⟩

/-!
The claims.
-/

/-- Claim C1 (referential integrity): after `save_with_deduplication` completes
a merge, every record in the merged encounters, observations, treatments,
diseases and medical-records collections has a `patient_id` equal to the
`person_id` of some person in the merged persons collection, provided the
previously persisted collections already satisfied this and every draft
record's `patient_id` equals the `person_id` of some person draft in the same
batch. -/
theorem c1_referential_integrity (b : Batch) (prior : Store) (now : String) (out : Store)
    (hpriorE : ∀ r ∈ prior.encounters, r.patient_id ∈ prior.persons.map Person.person_id)
    (hpriorO : ∀ r ∈ prior.observations, r.patient_id ∈ prior.persons.map Person.person_id)
    (hpriorT : ∀ r ∈ prior.treatments, r.patient_id ∈ prior.persons.map Person.person_id)
    (hpriorD : ∀ r ∈ prior.diseases, r.patient_id ∈ prior.persons.map Person.person_id)
    (hpriorM : ∀ r ∈ prior.medical_records, r.patient_id ∈ prior.persons.map Person.person_id)
    (hbatchE : ∀ r ∈ b.encounters, r.patient_id ∈ b.persons.map Person.person_id)
    (hbatchO : ∀ r ∈ b.observations, r.patient_id ∈ b.persons.map Person.person_id)
    (hbatchT : ∀ r ∈ b.treatments, r.patient_id ∈ b.persons.map Person.person_id)
    (hbatchD : ∀ r ∈ b.diseases, r.patient_id ∈ b.persons.map Person.person_id)
    (hbatchM : ∀ r ∈ b.medical_records, r.patient_id ∈ b.persons.map Person.person_id)
    (hok : save_with_deduplication b prior now = Except.ok out) :
    (∀ r ∈ out.encounters, r.patient_id ∈ out.persons.map Person.person_id) ∧
    (∀ r ∈ out.observations, r.patient_id ∈ out.persons.map Person.person_id) ∧
    (∀ r ∈ out.treatments, r.patient_id ∈ out.persons.map Person.person_id) ∧
    (∀ r ∈ out.diseases, r.patient_id ∈ out.persons.map Person.person_id) ∧
    (∀ r ∈ out.medical_records, r.patient_id ∈ out.persons.map Person.person_id) := by
  obtain ⟨u, m, fin, hd, rfl⟩ := save_ok_parts b prior now out hok
  have hfin := dedup_map_pid _ _ _ _ _ _ hd
  have hvals := dedup_mapping_values _ _ _ _ _ _ hd
  have hcov := dedup_covers _ _ _ _ _ _ hd
  exact ⟨refint_generic prior.encounters b.encounters prior.persons b.persons u fin m
      hfin hvals hcov hpriorE hbatchE,
    refint_generic prior.observations b.observations prior.persons b.persons u fin m
      hfin hvals hcov hpriorO hbatchO,
    refint_generic prior.treatments b.treatments prior.persons b.persons u fin m
      hfin hvals hcov hpriorT hbatchT,
    refint_generic prior.diseases b.diseases prior.persons b.persons u fin m
      hfin hvals hcov hpriorD hbatchD,
    refint_generic prior.medical_records b.medical_records prior.persons b.persons u fin m
      hfin hvals hcov hpriorM hbatchM⟩

/-- Claim C2 (append invariant): for every entity kind other than Person, the
collection persisted by `save_with_deduplication` has size exactly equal to
the previously persisted collection's size plus the number of draft records of
that kind in the batch, and the previously persisted records are still there,
unchanged and in order, at the front of the merged collection (no prior record
of these kinds is removed or overwritten). -/
theorem c2_append_invariant (b : Batch) (prior : Store) (now : String) (out : Store)
    (hok : save_with_deduplication b prior now = Except.ok out) :
    (out.encounters.length = prior.encounters.length + b.encounters.length ∧
      out.encounters.take prior.encounters.length = prior.encounters) ∧
    (out.observations.length = prior.observations.length + b.observations.length ∧
      out.observations.take prior.observations.length = prior.observations) ∧
    (out.treatments.length = prior.treatments.length + b.treatments.length ∧
      out.treatments.take prior.treatments.length = prior.treatments) ∧
    (out.diseases.length = prior.diseases.length + b.diseases.length ∧
      out.diseases.take prior.diseases.length = prior.diseases) ∧
    (out.medical_records.length = prior.medical_records.length + b.medical_records.length ∧
      out.medical_records.take prior.medical_records.length = prior.medical_records) := by
  obtain ⟨u, m, fin, hd, rfl⟩ := save_ok_parts b prior now out hok
  by_cases hm : m.isEmpty <;>
    simp [hm, List.length_append, remap_ids_length, List.take_left]

/-!
Concrete records for scenarios, counterexamples and witnesses.
-/

/-- A sample person record of the shape the Row Mapper produces (no phones,
constant district/country, fixed enrollment date and timestamps). -/
def samplePerson (pid : String) (nm : Option String) (ag : Option Int)
    (vil reg : Option String) : Person :=
  { person_id := pid
    person_type := some "patient"
    name := nm
    age := ag
    sex := none
    contact := { phone_primary := none, phone_secondary := none }
    address :=
      { village := vil
        subcounty := none
        district := some "tororo"
        country := some "uganda" }
    role_data :=
      { registration_number := reg
        enrollment_date := some "2026-01-01"
        status := some "active" }
    is_active := true
    created_at := "t0"
    updated_at := "t0" }

/-- A row with every column absent. -/
def baseRow : Row :=
  { patient_name := none
    age := none
    sex := none
    phone := none
    village := none
    reg_number := none
    assessment_date := none
    pulse_rate := none
    bp_systol := none
    bp_diastol := none
    temperature := none
    resp_rate := none
    general_assessment := none
    cachexia := none
    jaundice := none
    pallor := none
    body_wasting := none
    loc := none
    orientation := none }

/-- A draft that weak-matches `wsWeakOnly` (same name, village and age but a
different registration number) and strong-matches `wsStrong` (same
registration number `A`). -/
def wsDraft : Person := samplePerson "p9" (some "ann") (some 30) (some "v") (some "A")

/-- Existing person listed first: weak match only for `wsDraft`. -/
def wsWeakOnly : Person := samplePerson "e0" (some "ann") (some 30) (some "v") (some "B")

/-- Existing person listed second: strong (registration-number) match for
`wsDraft`. -/
def wsStrong : Person := samplePerson "e1" (some "bob") (some 40) (some "w") (some "A")

/-- Claim C3, counterexample: the draft `wsDraft` carries the non-empty
registration number `A`, and the existing collection
`[wsWeakOnly, wsStrong]` contains exactly one person (`wsStrong`, person_id
`e1`) with that normalized registration number.  Contrary to the claim, the
merge maps the draft to `e0` (the earlier weak name+village+age match), not to
`e1`; `update_person_info` then copies the draft's role_data onto `wsWeakOnly`,
so the resulting collection holds `2` persons with registration number `A`,
not exactly one. -/
theorem c3_counterexample :
    ([wsWeakOnly, wsStrong].countP (hasRegNorm (normUpper "A")) = 1) ∧
    wsStrong.person_id = "e1" ∧
    (deduplicate_persons [wsDraft] [wsWeakOnly, wsStrong] "t1").map
        (fun r => (r.1, r.2.1, r.2.2.countP (hasRegNorm (normUpper "A")))) =
      Except.ok ([], [("p9", "e0")], 2) :=
  ⟨rfl, rfl, rfl⟩

/-- Claim C3 (amended): merging a single person draft with a non-empty
registration number into a collection that contains exactly one person with
the same normalized registration number appends no new person, maps the
draft's identifier to the matched person's identifier, updates that person in
place, and leaves exactly one entry with that registration number — provided
the record `find_duplicate_person` returns for the draft is that
registration-number match (i.e. no earlier record of the collection matches
the draft first by the weak name+village+age rule). -/
theorem c3_strong_match_idempotent_amended
    (p : Person) (existing : List Person) (e : Person) (r now : String)
    (hreg : p.role_data.registration_number = some r)
    (_hne : normUpper r ≠ "")
    (hnodup : (existing.map Person.person_id).Nodup)
    (hcount : existing.countP (hasRegNorm (normUpper r)) = 1)
    (hfind : find_duplicate_person p existing = Except.ok (some e))
    (hstrong : hasRegNorm (normUpper r) e = true) :
    ∃ fin, deduplicate_persons [p] existing now =
        Except.ok ([], [(p.person_id, e.person_id)], fin) ∧
      fin.countP (hasRegNorm (normUpper r)) = 1 ∧
      fin.map Person.person_id = existing.map Person.person_id := by
  obtain ⟨pre, suf, he, hdecomp⟩ := find_duplicate_person_split p existing e hfind
  refine ⟨pre ++ (update_person_info e p now).1 :: suf,
    dedup_singleton p existing pre suf e now he hnodup, ?_, ?_⟩
  · subst hdecomp
    rw [List.countP_append, List.countP_cons] at hcount ⊢
    rw [hstrong] at hcount
    have hu : hasRegNorm (normUpper r) (update_person_info e p now).1 = true := by
      have hrole := update_person_info_fst_role e p now
      simp [hasRegNorm, hrole, hreg]
    rw [hu]
    omega
  · subst hdecomp
    simp [update_person_info_fst_pid]

/-- The draft used in the witness merges: strong match on `R1` against
`wSameReg`, with no other existing person. -/
def wDraft : Person := samplePerson "w1" (some "jane") (some 40) (some "a") (some "R1")

/-- The single existing person holding registration number `R1`. -/
def wSameReg : Person := samplePerson "w2" (some "janet") (some 41) (some "a") (some "R1")

/-- Witness for the amended claim C3 at a concrete input. -/
theorem c3_strong_match_idempotent_amended_witness :
    ∃ fin, deduplicate_persons [wDraft] [wSameReg] "t1" =
        Except.ok ([], [(wDraft.person_id, wSameReg.person_id)], fin) ∧
      fin.countP (hasRegNorm (normUpper "R1")) = 1 ∧
      fin.map Person.person_id = [wSameReg].map Person.person_id :=
  c3_strong_match_idempotent_amended wDraft [wSameReg] wSameReg "R1" "t1"
    rfl (by decide) (by decide) (by decide) rfl (by decide)

/-- Claim C4, counterexample: with existing collection
`[wsWeakOnly, wsStrong]`, the record `wsStrong` satisfies the strong rule for
`wsDraft` (both registration numbers are the non-empty `A`), yet
`find_duplicate_person` returns `wsWeakOnly`, which only satisfies the weak
name+village+age rule (its registration number is `B`).  The rules are
ordered per candidate record, not across the whole collection, so an earlier
weak-only match wins over a later strong match. -/
theorem c4_counterexample :
    wsDraft.role_data.registration_number = some "A" ∧
    wsStrong.role_data.registration_number = some "A" ∧
    wsWeakOnly.role_data.registration_number = some "B" ∧
    find_duplicate_person wsDraft [wsWeakOnly, wsStrong] =
      Except.ok (some wsWeakOnly) :=
  ⟨rfl, rfl, rfl, rfl⟩

/-- Claim C4 (amended): within each candidate record the strong rule is
evaluated before the weak rule, and the first record in list order satisfying
either rule is returned; hence if an existing record satisfies the strong
rule and no record before it matches the draft by either rule, that
strong-matching record is returned. -/
theorem c4_rule_precedence_amended
    (p e : Person) (pn pr en er : String) (pre suf : List Person)
    (hpn : p.name = some pn) (hpr : p.role_data.registration_number = some pr)
    (hen : e.name = some en) (her : e.role_data.registration_number = some er)
    (h1 : normUpper pr ≠ "") (h2 : normUpper er ≠ "") (h3 : normUpper pr = normUpper er)
    (hpre : findDupScan (normLower pn) (normUpper pr) p pre = Except.ok none) :
    find_duplicate_person p (pre ++ e :: suf) = Except.ok (some e) := by
  rw [find_duplicate_person, findDupEntry, hpn, hpr]
  simp only
  rw [findDupScan_append_none _ _ _ pre (e :: suf) hpre, findDupScan, hen, her]
  simp only
  rw [if_pos ⟨h1, h2, h3⟩]
  simp [Except.map, Option.map]

/-- A person that matches `wDraft` by no rule (different name, village, age
and registration number). -/
def wUnrelated : Person := samplePerson "w0" (some "zed") (some 10) (some "q") (some "Z9")

/-- Witness for the amended claim C4 at a concrete input: the strong match
`wSameReg` sits after the unrelated record `wUnrelated` and is returned. -/
theorem c4_rule_precedence_amended_witness :
    find_duplicate_person wDraft ([wUnrelated] ++ wSameReg :: []) =
      Except.ok (some wSameReg) :=
  c4_rule_precedence_amended wDraft wSameReg "jane" "R1" "janet" "R1"
    [wUnrelated] [] rfl rfl rfl rfl (by decide) (by decide) rfl rfl

/-- The Row-Mapper shape of the spec's weak-match scenario: a draft for John
Smith (name `john smith`, village `b`, age 30) whose registration-number
column was absent, so the Row Mapper stored `None` for it. -/
def c5draft : Person := samplePerson "p2" (some "john smith") (some 30) (some "b") none

/-- An already-persisted John Smith with the same normalized name, village and
age, holding registration number `REG9`. -/
def c5existing : Person := samplePerson "p1" (some "john smith") (some 30) (some "b") (some "REG9")

/-- Claim C5 (code bug): the spec's weak-match scenario — a draft lacking a
registration number whose name, village and age all equal an existing
person's — does not match and update that person: `find_duplicate_person`
evaluates `.upper()` on the draft's `None` registration number (line 30 of
deduplication.py) and raises `AttributeError` before any comparison, so
`deduplicate_persons` propagates the exception and the merge crashes. -/
theorem c5_reg_absent_raises :
    c5draft.role_data.registration_number = none ∧
    c5draft.name = c5existing.name ∧
    c5draft.address.village = c5existing.address.village ∧
    c5draft.age = c5existing.age ∧
    find_duplicate_person c5draft [c5existing] = Except.error () ∧
    deduplicate_persons [c5draft] [c5existing] "t1" = Except.error () :=
  ⟨rfl, rfl, rfl, rfl, rfl, rfl⟩

/-- Two records agreeing on name `ann`, village `v` and null age, with null
registration numbers. -/
def c6a : Person := samplePerson "pa" (some "ann") none (some "v") none

/-- Same as `c6a` with a different identifier. -/
def c6b : Person := samplePerson "pb" (some "ann") none (some "v") none

/-- Claim C6, counterexample: two records with equal non-empty normalized
names, equal normalized villages, and both ages null are not reported as the
same person when their registration numbers are null — `find_duplicate_person`
raises `AttributeError` at `.upper()` before the weak rule is reached. -/
theorem c6_counterexample :
    c6a.name = c6b.name ∧ c6a.name = some "ann" ∧
    c6a.address.village = c6b.address.village ∧
    c6a.age = none ∧ c6b.age = none ∧
    find_duplicate_person c6a [c6b] = Except.error () :=
  ⟨rfl, rfl, rfl, rfl, rfl, rfl⟩

/-- Claim C6 (amended): for any two person records whose registration-number
and village fields are non-null, with equal non-empty normalized names, equal
normalized villages and both ages null, `find_duplicate_person` reports them
as the same person: the null ages compare equal, so the weak rule fires (or
the strong rule fires first when the registration numbers are non-empty and
equal).  A null registration number instead raises `AttributeError`
(see the counterexample). -/
theorem c6_null_age_equal_amended
    (p e : Person) (pn en pr er pv ev : String)
    (hpn : p.name = some pn) (hen : e.name = some en)
    (hnm : normLower pn = normLower en) (hne : normLower pn ≠ "")
    (hpr : p.role_data.registration_number = some pr)
    (her : e.role_data.registration_number = some er)
    (hpv : p.address.village = some pv) (hev : e.address.village = some ev)
    (hv : normLower ev = normLower pv)
    (hpa : p.age = none) (hea : e.age = none) :
    find_duplicate_person p [e] = Except.ok (some e) := by
  rw [find_duplicate_person, findDupEntry, hpn, hpr]
  simp only
  rw [findDupScan, hen, her]
  simp only
  by_cases hs : normUpper pr ≠ "" ∧ normUpper er ≠ "" ∧ normUpper pr = normUpper er
  · rw [if_pos hs]
    simp [Except.map, Option.map]
  · rw [if_neg hs, if_pos ⟨hne, by rw [← hnm]; exact hne, hnm⟩, hev, hpv]
    simp only
    rw [if_pos ⟨hv, by rw [hea, hpa]⟩]
    simp [Except.map, Option.map]

/-- Record with name `ann`, village `v`, null age and empty-string
registration number. -/
def c6c : Person := samplePerson "pc" (some "ann") none (some "v") (some "")

/-- Same as `c6c` with a different identifier. -/
def c6d : Person := samplePerson "pd" (some "ann") none (some "v") (some "")

/-- Witness for the amended claim C6 at a concrete input (empty registration
numbers, so the weak rule is the rule that fires). -/
theorem c6_null_age_equal_amended_witness :
    find_duplicate_person c6c [c6d] = Except.ok (some c6d) :=
  c6_null_age_equal_amended c6c c6d "ann" "ann" "" "" "v" "v"
    rfl rfl rfl (by decide) rfl rfl rfl rfl rfl rfl rfl

/-- Existing person with stored age 30. -/
def c9existing : Person := samplePerson "ea" (some "sam") (some 30) (some "v") (some "R")

/-- New draft for the same person with age 0 (present and different). -/
def c9new : Person := samplePerson "na" (some "sam") (some 0) (some "v") (some "R")

/-- Claim C9, counterexample: the new draft's age 0 is present and differs
from the stored age 30, yet `update_person_info` keeps the stored age —
Python's `if new.get('age') and ...` treats the integer 0 as falsy, so an age
of 0 never overwrites. -/
theorem c9_counterexample :
    c9new.age = some 0 ∧ c9existing.age = some 30 ∧
    (update_person_info c9existing c9new "t2").1.age = some 30 :=
  ⟨rfl, rfl, rfl⟩

/-- Claim C9 (amended): `update_person_info` overwrites the stored age exactly
when the new draft's age is present, non-zero, and differs from the stored
age; an absent age never overwrites, and neither does a present age of 0
(Python truthiness). -/
theorem c9_age_merge_amended (existing new : Person) (now : String) :
    (new.age = none → (update_person_info existing new now).1.age = existing.age) ∧
    (new.age = some 0 → (update_person_info existing new now).1.age = existing.age) ∧
    (∀ a : Int, new.age = some a → a ≠ 0 → existing.age ≠ some a →
      (update_person_info existing new now).1.age = some a) ∧
    (∀ a : Int, new.age = some a → existing.age = some a →
      (update_person_info existing new now).1.age = existing.age) := by
  refine ⟨?_, ?_, ?_, ?_⟩
  · intro h; simp [update_person_info, h]
  · intro h; simp [update_person_info, h]
  · intro a h hnz hne; simp [update_person_info, h, hnz, hne]
  · intro a h he; simp [update_person_info, h, he]

/-- Witness for the amended claim C9 at concrete inputs: the four cases of the
age-merge policy evaluated on concrete records. -/
theorem c9_age_merge_amended_witness :
    (update_person_info c9existing (samplePerson "nb" (some "sam") none (some "v") (some "R")) "t2").1.age
        = c9existing.age ∧
    (update_person_info c9existing c9new "t2").1.age = c9existing.age ∧
    (update_person_info c9existing (samplePerson "nc" (some "sam") (some 41) (some "v") (some "R")) "t2").1.age
        = some 41 ∧
    (update_person_info c9existing (samplePerson "nd" (some "sam") (some 30) (some "v") (some "R")) "t2").1.age
        = c9existing.age :=
  ⟨(c9_age_merge_amended c9existing _ "t2").1 rfl,
   (c9_age_merge_amended c9existing c9new "t2").2.1 rfl,
   (c9_age_merge_amended c9existing _ "t2").2.2.1 41 rfl (by decide) (by decide),
   (c9_age_merge_amended c9existing _ "t2").2.2.2 30 rfl rfl⟩

/-- Claim C10 (frame effect): `deduplicate_persons` mutates its
`existing_persons` argument in place — for a draft with a match, the matched
entry of the caller's list is replaced with the updated record in the
returned final state — and, because `update_person_info` copies the existing
record only shallowly, the record it returns shares the existing record's
nested contact, address and role_data dicts: after the call the existing
record's nested parts equal the returned record's, while its top-level
fields (identifier, name, age, updated_at) are untouched. -/
theorem c10_inplace_and_sharing :
    (∀ (e p : Person) (now : String),
      (update_person_info e p now).2.contact = (update_person_info e p now).1.contact ∧
      (update_person_info e p now).2.address = (update_person_info e p now).1.address ∧
      (update_person_info e p now).2.role_data = (update_person_info e p now).1.role_data ∧
      (update_person_info e p now).2.person_id = e.person_id ∧
      (update_person_info e p now).2.name = e.name ∧
      (update_person_info e p now).2.age = e.age ∧
      (update_person_info e p now).2.updated_at = e.updated_at) ∧
    (∀ (p : Person) (existing pre suf : List Person) (e : Person) (now : String),
      findDupEntry p existing = Except.ok (some (pre, e, suf)) →
      (existing.map Person.person_id).Nodup →
      deduplicate_persons [p] existing now =
        Except.ok ([], [(p.person_id, e.person_id)],
          pre ++ (update_person_info e p now).1 :: suf)) :=
  ⟨fun _ _ _ => ⟨rfl, rfl, rfl, rfl, rfl, rfl, rfl⟩,
   fun p existing pre suf e now he hnd =>
     dedup_singleton p existing pre suf e now he hnd⟩

/-- Witness for claim C10 at a concrete input: the nested-sharing equations
and the in-place replacement of the matched entry for a concrete merge. -/
theorem c10_inplace_and_sharing_witness :
    ((update_person_info wSameReg wDraft "t2").2.contact =
        (update_person_info wSameReg wDraft "t2").1.contact ∧
      (update_person_info wSameReg wDraft "t2").2.age = wSameReg.age) ∧
    deduplicate_persons [wDraft] [wSameReg] "t2" =
      Except.ok ([], [(wDraft.person_id, wSameReg.person_id)],
        [] ++ (update_person_info wSameReg wDraft "t2").1 :: []) :=
  ⟨⟨(c10_inplace_and_sharing.1 wSameReg wDraft "t2").1,
    (c10_inplace_and_sharing.1 wSameReg wDraft "t2").2.2.2.2.2.1⟩,
   c10_inplace_and_sharing.2 wDraft [wSameReg] [] [] wSameReg "t2" rfl (by decide)⟩

theorem optObs_filter_exam (o : Option String) (pid eid cat nm k d t : String) :
    (optObs o pid eid "physical_exam_finding" cat nm k d t).filter
      (fun ob => ob.observation_type = "vital_sign") = [] := by
  cases o <;> simp [optObs, mkObs]

theorem optObs_filter_score (o : Option String) (pid eid cat nm k d t : String) :
    (optObs o pid eid "assessment_score" cat nm k d t).filter
      (fun ob => ob.observation_type = "vital_sign") = [] := by
  cases o <;> simp [optObs, mkObs]

/-- Claim C7 (vitals gating): a row in which none of pulse rate, systolic and
diastolic blood pressure, temperature and respiratory rate is present
produces zero vital-signs observations; a row in which exactly one of the
five is present produces exactly one vital-signs observation whose value dict
contains exactly that one field. -/
theorem c7_vitals_gating (row : Row) (pid eid d t : String) :
    (row.pulse_rate = none → row.bp_systol = none → row.bp_diastol = none →
        row.temperature = none → row.resp_rate = none →
      vitalSignObs row pid eid d t = []) ∧
    (∀ n : Int, row.pulse_rate = some n → row.bp_systol = none → row.bp_diastol = none →
        row.temperature = none → row.resp_rate = none →
      vitalSignObs row pid eid d t =
        [mkObs pid eid "vital_sign" "cardiovascular" "vital_signs"
          [("heart_rate", PyVal.pint n)] d t]) ∧
    (∀ n : Int, row.pulse_rate = none → row.bp_systol = some n → row.bp_diastol = none →
        row.temperature = none → row.resp_rate = none →
      vitalSignObs row pid eid d t =
        [mkObs pid eid "vital_sign" "cardiovascular" "vital_signs"
          [("blood_pressure_systolic", PyVal.pint n)] d t]) ∧
    (∀ n : Int, row.pulse_rate = none → row.bp_systol = none → row.bp_diastol = some n →
        row.temperature = none → row.resp_rate = none →
      vitalSignObs row pid eid d t =
        [mkObs pid eid "vital_sign" "cardiovascular" "vital_signs"
          [("blood_pressure_diastolic", PyVal.pint n)] d t]) ∧
    (∀ n : Int, row.pulse_rate = none → row.bp_systol = none → row.bp_diastol = none →
        row.temperature = some n → row.resp_rate = none →
      vitalSignObs row pid eid d t =
        [mkObs pid eid "vital_sign" "cardiovascular" "vital_signs"
          [("temperature", PyVal.pint n)] d t]) ∧
    (∀ n : Int, row.pulse_rate = none → row.bp_systol = none → row.bp_diastol = none →
        row.temperature = none → row.resp_rate = some n →
      vitalSignObs row pid eid d t =
        [mkObs pid eid "vital_sign" "cardiovascular" "vital_signs"
          [("respiratory_rate", PyVal.pint n)] d t]) := by
  refine ⟨?_, ?_, ?_, ?_, ?_, ?_⟩
  · intro h1 h2 h3 h4 h5
    simp [vitalSignObs, rowObservations, rowVitals, h1, h2, h3, h4, h5,
      List.filter_append, optObs_filter_exam, optObs_filter_score]
  all_goals intro n h1 h2 h3 h4 h5
  all_goals simp [vitalSignObs, rowObservations, rowVitals, h1, h2, h3, h4, h5,
    List.filter_append, optObs_filter_exam, optObs_filter_score, mkObs]

/-- A row whose only present vital is a temperature of 37, plus one present
exam finding (which must not produce a vital-signs observation). -/
def c7row : Row := { baseRow with
  temperature := some 37
  cachexia := some "yes" }

/-- Witness for claim C7 at concrete inputs: the all-absent row yields no
vital-signs observation; the temperature-only row yields exactly one, holding
exactly the temperature field. -/
theorem c7_vitals_gating_witness :
    vitalSignObs baseRow "p" "e" "d" "t" = [] ∧
    vitalSignObs c7row "p" "e" "d" "t" =
      [mkObs "p" "e" "vital_sign" "cardiovascular" "vital_signs"
        [("temperature", PyVal.pint 37)] "d" "t"] :=
  ⟨(c7_vitals_gating baseRow "p" "e" "d" "t").1 rfl rfl rfl rfl rfl,
   (c7_vitals_gating c7row "p" "e" "d" "t").2.2.2.2.1 37 rfl rfl rfl rfl rfl⟩

/-- A row whose patient-name cell is present but blank (whitespace only). -/
def c8row : Row := { baseRow with patient_name := some "   " }

/-- Claim C8, counterexample: a present-but-blank patient name is trimmed to
the empty string, so the produced person draft carries the empty-string name
`some ""` — not the missing marker `none` the claim promises for blank source
values. -/
theorem c8_counterexample :
    c8row.patient_name = some "   " ∧
    (mkPerson c8row "p" "t" "d").name = some "" ∧
    (mkPerson c8row "p" "t" "d").name ≠ none :=
  ⟨rfl, rfl, by decide⟩

/-- Claim C8 (amended): the Row Mapper maps *absent* (null/NaN) source values
of the text fields name, village, registration number and sex to the explicit
missing marker `None`; a *present* value is only trimmed and case-normalized,
so a present-but-blank (whitespace-only) source value becomes the empty
string, not the missing marker. -/
theorem c8_missing_marker_amended (row : Row) (pid now nd : String) :
    ((row.patient_name = none → (mkPerson row pid now nd).name = none) ∧
      (∀ s, row.patient_name = some s →
        (mkPerson row pid now nd).name = some (pyLower (pyStrip s)))) ∧
    ((row.sex = none → (mkPerson row pid now nd).sex = none) ∧
      (∀ s, row.sex = some s →
        (mkPerson row pid now nd).sex = some (pyLower (pyStrip s)))) ∧
    ((row.village = none → (mkPerson row pid now nd).address.village = none) ∧
      (∀ s, row.village = some s →
        (mkPerson row pid now nd).address.village = some (pyLower (pyStrip s)))) ∧
    ((row.reg_number = none →
        (mkPerson row pid now nd).role_data.registration_number = none) ∧
      (∀ s, row.reg_number = some s →
        (mkPerson row pid now nd).role_data.registration_number =
          some (pyUpper (pyStrip s)))) := by
  refine ⟨⟨?_, ?_⟩, ⟨?_, ?_⟩, ⟨?_, ?_⟩, ⟨?_, ?_⟩⟩ <;>
    first
    | (intro h; simp [mkPerson, h])
    | (intro s h; simp [mkPerson, h])

/-- Witness for the amended claim C8 at concrete inputs: absent fields of
`baseRow` map to `none`; the blank name of `c8row` maps to `some ""`. -/
theorem c8_missing_marker_amended_witness :
    ((mkPerson baseRow "p" "t" "d").name = none ∧
      (mkPerson baseRow "p" "t" "d").role_data.registration_number = none) ∧
    (mkPerson c8row "p" "t" "d").name = some (pyLower (pyStrip "   ")) :=
  ⟨⟨(c8_missing_marker_amended baseRow "p" "t" "d").1.1 rfl,
    (c8_missing_marker_amended baseRow "p" "t" "d").2.2.2.1 rfl⟩,
   (c8_missing_marker_amended c8row "p" "t" "d").1.2 "   " rfl⟩

/-- The empty record base (first-run condition: all six collections empty). -/
def emptyStore : Store :=
  { persons := []
    encounters := []
    observations := []
    treatments := []
    diseases := []
    medical_records := [] }

/-- An encounter draft referencing the draft person `p1`. -/
def w1enc : Encounter := { encounter_id := "e1", patient_id := "p1" }

/-- A one-row batch: one person draft and one encounter referencing it. -/
def w1batch : Batch :=
  { persons := [samplePerson "p1" (some "jane") (some 40) (some "a") (some "R1")]
    encounters := [w1enc]
    observations := []
    treatments := []
    diseases := []
    medical_records := [] }

/-- The record base `save_with_deduplication` persists for `w1batch` merged
into the empty store. -/
def w1out : Store :=
  { persons := [samplePerson "p1" (some "jane") (some 40) (some "a") (some "R1")]
    encounters := [w1enc]
    observations := []
    treatments := []
    diseases := []
    medical_records := [] }

/-- Witness for claim C1 at a concrete input: merging one person plus one
encounter into the empty store yields a store in which every dependent
record's patient_id resolves. -/
theorem c1_referential_integrity_witness :
    (∀ r ∈ w1out.encounters, r.patient_id ∈ w1out.persons.map Person.person_id) ∧
    (∀ r ∈ w1out.observations, r.patient_id ∈ w1out.persons.map Person.person_id) ∧
    (∀ r ∈ w1out.treatments, r.patient_id ∈ w1out.persons.map Person.person_id) ∧
    (∀ r ∈ w1out.diseases, r.patient_id ∈ w1out.persons.map Person.person_id) ∧
    (∀ r ∈ w1out.medical_records, r.patient_id ∈ w1out.persons.map Person.person_id) :=
  c1_referential_integrity w1batch emptyStore "t0" w1out
    (by simp [emptyStore]) (by simp [emptyStore]) (by simp [emptyStore])
    (by simp [emptyStore]) (by simp [emptyStore])
    (by simp [w1batch, w1enc, samplePerson]) (by simp [w1batch])
    (by simp [w1batch]) (by simp [w1batch]) (by simp [w1batch])
    rfl

/-- Witness for claim C2 at the same concrete input: sizes add up and the
(empty) prior collections are preserved as prefixes. -/
theorem c2_append_invariant_witness :
    (w1out.encounters.length = emptyStore.encounters.length + w1batch.encounters.length ∧
      w1out.encounters.take emptyStore.encounters.length = emptyStore.encounters) ∧
    (w1out.observations.length = emptyStore.observations.length + w1batch.observations.length ∧
      w1out.observations.take emptyStore.observations.length = emptyStore.observations) ∧
    (w1out.treatments.length = emptyStore.treatments.length + w1batch.treatments.length ∧
      w1out.treatments.take emptyStore.treatments.length = emptyStore.treatments) ∧
    (w1out.diseases.length = emptyStore.diseases.length + w1batch.diseases.length ∧
      w1out.diseases.take emptyStore.diseases.length = emptyStore.diseases) ∧
    (w1out.medical_records.length =
        emptyStore.medical_records.length + w1batch.medical_records.length ∧
      w1out.medical_records.take emptyStore.medical_records.length =
        emptyStore.medical_records) :=
  c2_append_invariant w1batch emptyStore "t0" w1out rfl
